import Mathlib

/-!
A verification development for the configuration-resolution core of the
vault-operator repository (`pkg/apis/vault/v1alpha1/vault_types.go`).

The Go code is shallowly embedded: the dynamically-typed configuration
document becomes an inductive `JSON` tree whose objects are association
lists (Go's `map[string]interface{}` has no key order; the stanza
accessors by convention face single-key maps, and the embedding fixes the
list order as the iteration order), and each method of `VaultSpec`,
`Vault` and `UnsealConfig` becomes a Lean function of the same name.
Functions from third-party libraries that are not part of the repository
source (mergo's deep merge, docker reference parsing, semver parsing,
Go's `time.ParseDuration`) are modelled from the specification's words and
carry a doc comment saying so.
-/

/-- A JSON-compatible document tree: the shallow embedding of Go's
`map[string]interface{}` configuration documents. Objects are association
lists of key/value pairs. -/
inductive JSON where
  | null : JSON
  | bool : Bool → JSON
  | num : Int → JSON
  | str : String → JSON
  | arr : List JSON → JSON
  | obj : List (String × JSON) → JSON

/-- First-match lookup in an association list, the embedding of indexing a
Go `map[string]interface{}` (absent key yields `none`, Go's untyped nil). -/
def lookupKV : List (String × JSON) → String → Option JSON
  | [], _ => none
  | (k, v) :: rest, key => if k = key then some v else lookupKV rest key

/-- Lookup of a top-level key of a document. Non-object documents have no
keys, mirroring Go's indexing of a nil map. -/
def JSON.lookup : JSON → String → Option JSON
  | .obj kvs, k => lookupKV kvs k
  | _, _ => none

/-- Embedding of `cast.ToStringMap`: an object yields its entries, any
other value (or an absent one) degrades to the empty map. -/
def toStringMap : Option JSON → List (String × JSON)
  | some (.obj kvs) => kvs
  | _ => []

/-- Embedding of `cast.ToBool` on the values a document can hold: booleans
pass through, strings go through Go's `strconv.ParseBool` table, numbers
are true when nonzero, and everything else (nil, arrays, maps) is false. -/
def castToBool : Option JSON → Bool
  | some (.bool b) => b
  | some (.str s) =>
      s = "1" || s = "t" || s = "T" || s = "true" || s = "TRUE" || s = "True"
  | some (.num n) => n != 0
  | _ => false

/-- `HAStorageTypes`: the set of storage backends supporting High
Availability (the package-level table in vault_types.go). -/
def HAStorageTypes : List String :=
  ["consul", "dynamodb", "etcd", "gcs", "mysql", "postgresql", "raft",
   "oci", "spanner", "zookeeper"]

/-- `UnsealOptions`: the common options of all unsealing backends.
Go's pointer fields become `Option`. -/
structure UnsealOptions where
  preFlightChecks : Option Bool
  storeRootToken : Option Bool
  secretThreshold : Option Nat
  secretShares : Option Nat

/-- `KubernetesUnsealConfig`: parameters for Kubernetes based unsealing. -/
structure KubernetesUnsealConfig where
  secretNamespace : String
  secretName : String

/-- `GoogleUnsealConfig`: parameters for Google KMS based unsealing. -/
structure GoogleUnsealConfig where
  kmsKeyRing : String
  kmsCryptoKey : String
  kmsLocation : String
  kmsProject : String
  storageBucket : String

/-- `AlibabaUnsealConfig`: parameters for Alibaba Cloud KMS based unsealing. -/
structure AlibabaUnsealConfig where
  kmsRegion : String
  kmsKeyID : String
  ossEndpoint : String
  ossBucket : String
  ossPrefix : String

/-- `AzureUnsealConfig`: parameters for Azure Key Vault based unsealing. -/
structure AzureUnsealConfig where
  keyVaultName : String

/-- `AWSUnsealConfig`: parameters for AWS KMS based unsealing. -/
structure AWSUnsealConfig where
  kmsKeyID : String
  kmsRegion : String
  kmsEncryptionContext : String
  s3Bucket : String
  s3Prefix : String
  s3Region : String
  s3SSE : String

/-- `OCIUnsealConfig`: parameters for Oracle Cloud Infrastructure based
unsealing. -/
structure OCIUnsealConfig where
  keyOCID : String
  cryptographicEndpoint : String
  bucketName : String
  bucketNamespace : String
  bucketPrefix : String

/-- `VaultUnsealConfig`: parameters for remote Vault based unsealing. -/
structure VaultUnsealConfig where
  address : String
  unsealKeysPath : String
  role : String
  authPath : String
  tokenPath : String
  token : String

/-- `HSMUnsealConfig`: parameters for HSM based unsealing. -/
structure HSMUnsealConfig where
  daemon : Bool
  modulePath : String
  slotID : Nat
  tokenLabel : String
  pin : String
  keyLabel : String

/-- `UnsealConfig`: the UnsealConfig field of a VaultSpec object. The
seven backend variants are Go pointers, hence `Option`. -/
structure UnsealConfig where
  options : UnsealOptions
  kubernetes : KubernetesUnsealConfig
  google : Option GoogleUnsealConfig
  alibaba : Option AlibabaUnsealConfig
  azure : Option AzureUnsealConfig
  aws : Option AWSUnsealConfig
  oci : Option OCIUnsealConfig
  vault : Option VaultUnsealConfig
  hsm : Option HSMUnsealConfig

/-- `netv1.ServiceBackendPort`. -/
structure ServiceBackendPort where
  number : Int

/-- `netv1.IngressServiceBackend`. -/
structure IngressServiceBackend where
  name : String
  port : ServiceBackendPort

/-- `netv1.IngressBackend` (only the service form is used by the code). -/
structure IngressBackend where
  service : Option IngressServiceBackend

/-- `netv1.IngressRule`: only the presence of rules matters to the code
under verification, so a rule is embedded by its host field. -/
structure IngressRule where
  host : String

/-- The part of `netv1.IngressSpec` read and written by `GetIngress`. -/
structure IngressSpec where
  rules : List IngressRule
  defaultBackend : Option IngressBackend

/-- `Ingress`: the ingress specification of the Vault cluster.
Annotations are an association list standing for the Go string map. -/
structure Ingress where
  annotations : List (String × String)
  spec : IngressSpec

/-- The fields of `VaultSpec` that the verified methods read. `config` is
the already-unmarshalled configuration document (the Go code stores raw
JSON bytes and unmarshals on each access; the embedding works on the
parsed tree directly). -/
structure VaultSpec where
  image : String
  tlsExpiryThreshold : String
  serviceRegistrationEnabled : Bool
  config : JSON
  ingress : Option Ingress
  unsealConfig : UnsealConfig

/-- `Vault`: the custom resource; `nspace` embeds the object metadata's
Namespace field (namespace is a reserved word in Lean). -/
structure Vault where
  name : String
  nspace : String
  spec : VaultSpec

/-- `getStorage`: the storage stanza of the configuration document. -/
def VaultSpec.getStorage (spec : VaultSpec) : List (String × JSON) :=
  toStringMap (spec.config.lookup "storage")

/-- `getHAStorage`: the ha_storage stanza of the configuration document. -/
def VaultSpec.getHAStorage (spec : VaultSpec) : List (String × JSON) :=
  toStringMap (spec.config.lookup "ha_storage")

/-- `GetStorageType` returns the type of Vault's storage stanza: its first
key, or the empty string when the stanza is empty. (Go takes the first of
`reflect.MapKeys`, an arbitrary choice for multi-key maps; the stanza is
by convention single-key and the embedding takes the list head.) -/
def VaultSpec.GetStorageType (spec : VaultSpec) : String :=
  match spec.getStorage with
  | [] => ""
  | (k, _) :: _ => k

/-- `hasHAStorageStanza`: whether the ha_storage stanza is non-empty. -/
def VaultSpec.hasHAStorageStanza (spec : VaultSpec) : Bool :=
  !spec.getHAStorage.isEmpty

/-- `HasStorageHAEnabled` detects if the ha_enabled field is set to true
in Vault's storage stanza; in Consul and raft HA is always enabled. -/
def VaultSpec.HasStorageHAEnabled (spec : VaultSpec) : Bool :=
  spec.GetStorageType == "consul" || spec.GetStorageType == "raft" ||
    castToBool (lookupKV (toStringMap (lookupKV spec.getStorage spec.GetStorageType)) "ha_enabled")

/-- `HasHAStorage` detects if Vault is configured to use a storage backend
which supports High Availability or if it has a ha_storage stanza. -/
def VaultSpec.HasHAStorage (spec : VaultSpec) : Bool :=
  (HAStorageTypes.contains spec.GetStorageType && spec.HasStorageHAEnabled) ||
    spec.hasHAStorageStanza

/-- `getListener`: the listener stanza of the configuration document. -/
def VaultSpec.getListener (spec : VaultSpec) : List (String × JSON) :=
  toStringMap (spec.config.lookup "listener")

/-- `IsTLSDisabled` returns if Vault's TLS should be disabled
(`listener.tcp.tls_disable`). -/
def VaultSpec.IsTLSDisabled (spec : VaultSpec) : Bool :=
  castToBool (lookupKV (toStringMap (lookupKV spec.getListener "tcp")) "tls_disable")

/-- A parsed semantic version (major.minor.patch). -/
structure SemVer where
  major : Nat
  minor : Nat
  patch : Nat
deriving DecidableEq

/-- The error cases of `GetVersion`, named as in the specification. -/
inductive VersionError where
  | invalidReference : VersionError
  | missingTag : VersionError
  | invalidVersion : VersionError
deriving DecidableEq

/-- A parsed image reference: its name and its optional tag component. -/
structure ParsedRef where
  repoName : String
  tag : Option String

/-- Splits a character list at its last colon: `some (pre, post)` when a
colon exists, where `post` is everything after the last colon. -/
def splitLastColon : List Char → Option (List Char × List Char)
  | [] => none
  | c :: cs =>
      match splitLastColon cs with
      | some (pre, post) => some (c :: pre, post)
      | none => if c = ':' then some ([], cs) else none

/-- Modelled from the spec: `reference.ParseAnyReference` lives in the
external docker-ref library, absent from src/. Per the specification the
resolver is purely syntactic: an unparsable reference fails, and the tag
component is what follows the last colon of the name part (a colon
followed by a slash belongs to a registry host, and anything after an `@`
is a digest, so digest-only references have no tag). -/
def parseAnyReference (s : String) : Option ParsedRef :=
  if s = "" then none
  else
    let base : List Char := s.toList.takeWhile (fun c => c ≠ '@')
    match splitLastColon base with
    | none => some { repoName := base.asString, tag := none }
    | some (pre, post) =>
        if post.contains '/' then some { repoName := base.asString, tag := none }
        else if post = [] then none
        else some { repoName := pre.asString, tag := some post.asString }

/-- Numeric value of a list of decimal digit characters. -/
def digitsVal (cs : List Char) : Nat :=
  cs.foldl (fun acc c => acc * 10 + (c.toNat - 48)) 0

/-- Splits a character list on dots (helper of `semverParse`). -/
def splitOnDot : List Char → List (List Char)
  | [] => [[]]
  | c :: cs =>
      if c = '.' then [] :: splitOnDot cs
      else
        match splitOnDot cs with
        | r :: rs => (c :: r) :: rs
        | [] => [[c]]

/-- Modelled from the spec: `semver.NewVersion` lives in the external
semver library, absent from src/. The tag is parsed as a semantic version
`major.minor.patch` of decimal numerals (an optional leading `v` is
accepted); anything else is malformed. -/
def semverParse (t : String) : Option SemVer :=
  let core :=
    match t.toList with
    | 'v' :: rest => rest
    | cs => cs
  match splitOnDot core with
  | [a, b, c] =>
      if !a.isEmpty && a.all Char.isDigit && (!b.isEmpty && b.all Char.isDigit) &&
         (!c.isEmpty && c.all Char.isDigit) then
        some ⟨digitsVal a, digitsVal b, digitsVal c⟩
      else none
  | _ => none

/-- `GetVersion` returns the version of Vault: parse the image reference,
fail if unparsable; fail if the reference has no tag; otherwise parse the
tag as a semantic version. -/
def VaultSpec.GetVersion (spec : VaultSpec) : Except VersionError SemVer :=
  match parseAnyReference spec.image with
  | none => .error .invalidReference
  | some ref =>
      match ref.tag with
      | none => .error .missingTag
      | some t =>
          match semverParse t with
          | none => .error .invalidVersion
          | some v => .ok v

/-- Splits the leading decimal digits off a character list; fails when
there are none. -/
def parseDigits (cs : List Char) : Option (Nat × List Char) :=
  let ds := cs.takeWhile Char.isDigit
  if ds.isEmpty then none else some (digitsVal ds, cs.drop ds.length)

/-- Modelled from the spec: a duration unit suffix and its value in
nanoseconds (Go's `time.ParseDuration` unit table). Longer units are
matched first so that `ms` is not read as `m`. -/
def parseUnit : List Char → Option (Int × List Char)
  | 'n' :: 's' :: rest => some (1, rest)
  | 'u' :: 's' :: rest => some (1000, rest)
  | 'm' :: 's' :: rest => some (1000000, rest)
  | 's' :: rest => some (1000000000, rest)
  | 'm' :: rest => some (60000000000, rest)
  | 'h' :: rest => some (3600000000000, rest)
  | _ => none

/-- One or more number-with-unit terms, summed, in nanoseconds. The fuel
bounds the recursion; each term consumes at least two characters. -/
def parseDurTerms : Nat → List Char → Option Int
  | 0, _ => none
  | f + 1, cs =>
      match parseDigits cs with
      | none => none
      | some (n, rest) =>
          match parseUnit rest with
          | none => none
          | some (u, rest2) =>
              if rest2.isEmpty then some ((n : Int) * u)
              else
                match parseDurTerms f rest2 with
                | none => none
                | some tail => some ((n : Int) * u + tail)

/-- Modelled from the spec: Go's `time.ParseDuration`
(duration-with-unit-suffix grammar), absent from src/. The result is in
nanoseconds, `none` on a malformed string. -/
def ParseDuration (s : String) : Option Int :=
  parseDurTerms s.length s.toList

/-- `GetTLSExpiryThreshold` returns the Vault TLS certificate expiration
threshold: the default of 168 hours when the field is empty, the default
again (after logging) when the field does not parse, the parsed duration
otherwise. The result is in nanoseconds like Go's `time.Duration`. -/
def VaultSpec.GetTLSExpiryThreshold (spec : VaultSpec) : Int :=
  if spec.tlsExpiryThreshold = "" then 168 * 3600000000000
  else
    match ParseDuration spec.tlsExpiryThreshold with
    | none => 168 * 3600000000000
    | some d => d

/-- `LabelsForVault` returns the labels for selecting the resources
belonging to the given vault CR name (a fixed two-entry map; the list is
one iteration order of it). -/
def Vault.LabelsForVault (vault : Vault) : List (String × String) :=
  [("app.kubernetes.io/name", "vault"), ("vault_cr", vault.name)]

/-- Lexicographic less-or-equal on character lists (Go compares strings
bytewise; UTF-8 byte order coincides with code-point order). -/
def charListLe : List Char → List Char → Bool
  | [], _ => true
  | _ :: _, [] => false
  | a :: as, b :: bs =>
      if a < b then true
      else if b < a then false
      else charListLe as bs

/-- Less-or-equal on strings, by their character lists. -/
def strLe (a b : String) : Bool :=
  charListLe a.data b.data

/-- Ascending insertion of a string into a list (helper of `sortStrings`). -/
def insertStr (s : String) : List String → List String
  | [] => [s]
  | t :: ts => if strLe s t then s :: t :: ts else t :: insertStr s ts

/-- Embedding of `sort.Strings`: sorts a list of strings ascending. -/
def sortStrings : List String → List String
  | [] => []
  | s :: ss => insertStr s (sortStrings ss)

/-- The `k=v` entries built from a label iteration order, sorted ascending
(the `secretLabels` computation of `ToArgs`). -/
def labelPairs (order : List (String × String)) : List String :=
  sortStrings (order.map (fun kv => kv.1 ++ "=" ++ kv.2))

/-- The `--k8s-secret-labels` value: sorted entries joined with commas. -/
def selectorString (order : List (String × String)) : String :=
  String.intercalate "," (labelPairs order)

/-- The cross-cutting option flags emitted at the start of `ToArgs`:
pre-flight-checks and store-root-token are true by default and contribute
a flag only when explicitly false; shares and threshold contribute a
flag/value pair when explicitly positive. -/
def optionsArgs (opts : UnsealOptions) : List String :=
  (match opts.preFlightChecks with
   | some b => if b then [] else ["--pre-flight-checks=false"]
   | none => []) ++
  (match opts.storeRootToken with
   | some b => if b then [] else ["--store-root-token=false"]
   | none => []) ++
  (match opts.secretShares with
   | some n => if 0 < n then ["--secret-shares", toString n] else []
   | none => []) ++
  (match opts.secretThreshold with
   | some n => if 0 < n then ["--secret-threshold", toString n] else []
   | none => [])

/-- The body of `ToArgs` with the label-selector string already computed
(the Go code computes the identical `strings.Join(secretLabels, ",")`
expression inside the two branches that use it): the cross-cutting option
flags followed by the first-match backend branch in source order. -/
def ToArgsCore (usc : UnsealConfig) (vault : Vault) (sel : String) : List String :=
  match usc.google with
  | some g =>
      optionsArgs usc.options ++
        ["--mode", "google-cloud-kms-gcs",
         "--google-cloud-kms-key-ring", g.kmsKeyRing,
         "--google-cloud-kms-crypto-key", g.kmsCryptoKey,
         "--google-cloud-kms-location", g.kmsLocation,
         "--google-cloud-kms-project", g.kmsProject,
         "--google-cloud-storage-bucket", g.storageBucket]
  | none =>
  match usc.azure with
  | some az =>
      optionsArgs usc.options ++
        ["--mode", "azure-key-vault", "--azure-key-vault-name", az.keyVaultName]
  | none =>
  match usc.oci with
  | some o =>
      optionsArgs usc.options ++
        ["--mode", "oci",
         "--oci-key-ocid", o.keyOCID,
         "--oci-cryptographic-endpoint", o.cryptographicEndpoint,
         "--oci-bucket-namespace", o.bucketNamespace,
         "--oci-bucket-name", o.bucketName,
         "--oci-bucket-prefix", o.bucketPrefix]
  | none =>
  match usc.aws with
  | some a =>
      optionsArgs usc.options ++
        ["--mode", "aws-kms-s3",
         "--aws-kms-key-id", a.kmsKeyID,
         "--aws-kms-region", a.kmsRegion,
         "--aws-s3-bucket", a.s3Bucket,
         "--aws-s3-prefix", a.s3Prefix,
         "--aws-s3-region", a.s3Region,
         "--aws-s3-sse-algo", a.s3SSE] ++
        (if a.kmsEncryptionContext ≠ "" then
          ["--aws-kms-encryption-context", a.kmsEncryptionContext]
         else [])
  | none =>
  match usc.alibaba with
  | some al =>
      optionsArgs usc.options ++
        ["--mode", "alibaba-kms-oss",
         "--alibaba-kms-region", al.kmsRegion,
         "--alibaba-kms-key-id", al.kmsKeyID,
         "--alibaba-oss-endpoint", al.ossEndpoint,
         "--alibaba-oss-bucket", al.ossBucket,
         "--alibaba-oss-prefix", al.ossPrefix]
  | none =>
  match usc.vault with
  | some vt =>
      optionsArgs usc.options ++
        ["--mode", "vault",
         "--vault-addr", vt.address,
         "--vault-unseal-keys-path", vt.unsealKeysPath] ++
        (if vt.token ≠ "" then ["--vault-token", vt.token]
         else if vt.tokenPath ≠ "" then ["--vault-token-path", vt.tokenPath]
         else if vt.role ≠ "" then
           ["--vault-role", vt.role, "--vault-auth-path", vt.authPath]
         else [])
  | none =>
  match usc.hsm with
  | some h =>
      optionsArgs usc.options ++
        ["--mode",
         (if usc.kubernetes.secretNamespace ≠ "" ∧ usc.kubernetes.secretName ≠ "" then
           "hsm-k8s" else "hsm"),
         "--hsm-module-path", h.modulePath,
         "--hsm-slot-id", toString h.slotID,
         "--hsm-key-label", h.keyLabel] ++
        (if h.pin ≠ "" then ["--hsm-pin", h.pin] else []) ++
        (if h.tokenLabel ≠ "" then ["--hsm-token-label", h.tokenLabel] else []) ++
        (if usc.kubernetes.secretNamespace ≠ "" ∧ usc.kubernetes.secretName ≠ "" then
          ["--k8s-secret-namespace", usc.kubernetes.secretNamespace,
           "--k8s-secret-name", usc.kubernetes.secretName,
           "--k8s-secret-labels", sel]
         else [])
  | none =>
      optionsArgs usc.options ++
        ["--mode", "k8s",
         "--k8s-secret-namespace",
         (if usc.kubernetes.secretNamespace ≠ "" then usc.kubernetes.secretNamespace
          else vault.nspace),
         "--k8s-secret-name",
         (if usc.kubernetes.secretName ≠ "" then usc.kubernetes.secretName
          else vault.name ++ "-unseal-keys"),
         "--k8s-secret-labels", sel]

/-- `ToArgs` returns the UnsealConfig as an argument array for
bank-vaults. `labelOrder` is the iteration order in which Go's
nondeterministic `range` walks the `LabelsForVault` map; the source sorts
the derived entries before joining them. -/
def UnsealConfig.ToArgs (usc : UnsealConfig) (vault : Vault)
    (labelOrder : List (String × String)) : List String :=
  ToArgsCore usc vault (selectorString labelOrder)

/-- The eight mutually exclusive unseal backend variants named by the
specification. -/
inductive UnsealVariant where
  | google : UnsealVariant
  | azure : UnsealVariant
  | oracle : UnsealVariant
  | aws : UnsealVariant
  | alibaba : UnsealVariant
  | remoteServer : UnsealVariant
  | hsm : UnsealVariant
  | kubernetesSecret : UnsealVariant
deriving DecidableEq

/-- Follows the specification's words: selection is by fixed priority,
first match wins, in the exact order Google, Azure, Oracle, AWS, Alibaba,
remote-server, HSM, and, only if none of these variants is set, the
Kubernetes-secret default. -/
def selectVariant (usc : UnsealConfig) : UnsealVariant :=
  if usc.google.isSome then .google
  else if usc.azure.isSome then .azure
  else if usc.oci.isSome then .oracle
  else if usc.aws.isSome then .aws
  else if usc.alibaba.isSome then .alibaba
  else if usc.vault.isSome then .remoteServer
  else if usc.hsm.isSome then .hsm
  else .kubernetesSecret

/-- Follows the specification's words: the `--mode` value each variant
contributes; the HSM variant's mode depends on whether Kubernetes-secret
metadata (namespace and name) is also present. -/
def modeNameOf (usc : UnsealConfig) : UnsealVariant → String
  | .google => "google-cloud-kms-gcs"
  | .azure => "azure-key-vault"
  | .oracle => "oci"
  | .aws => "aws-kms-s3"
  | .alibaba => "alibaba-kms-oss"
  | .remoteServer => "vault"
  | .hsm =>
      if usc.kubernetes.secretNamespace ≠ "" ∧ usc.kubernetes.secretName ≠ "" then
        "hsm-k8s" else "hsm"
  | .kubernetesSecret => "k8s"

/-- Follows the specification's words: the flag/value pairs each selected
variant contributes after its `--mode` pair, in the fixed backend-specific
order of section 4.3 of the specification (optional flags only when
non-empty; the remote-server credential by fixed precedence; defaulted
secret namespace/name and the sorted label selector for the
Kubernetes-secret default). -/
def modeTail (usc : UnsealConfig) (vault : Vault) (sel : String) : List String :=
  match usc.google with
  | some g =>
      ["--google-cloud-kms-key-ring", g.kmsKeyRing,
       "--google-cloud-kms-crypto-key", g.kmsCryptoKey,
       "--google-cloud-kms-location", g.kmsLocation,
       "--google-cloud-kms-project", g.kmsProject,
       "--google-cloud-storage-bucket", g.storageBucket]
  | none =>
  match usc.azure with
  | some az => ["--azure-key-vault-name", az.keyVaultName]
  | none =>
  match usc.oci with
  | some o =>
      ["--oci-key-ocid", o.keyOCID,
       "--oci-cryptographic-endpoint", o.cryptographicEndpoint,
       "--oci-bucket-namespace", o.bucketNamespace,
       "--oci-bucket-name", o.bucketName,
       "--oci-bucket-prefix", o.bucketPrefix]
  | none =>
  match usc.aws with
  | some a =>
      ["--aws-kms-key-id", a.kmsKeyID,
       "--aws-kms-region", a.kmsRegion,
       "--aws-s3-bucket", a.s3Bucket,
       "--aws-s3-prefix", a.s3Prefix,
       "--aws-s3-region", a.s3Region,
       "--aws-s3-sse-algo", a.s3SSE] ++
      (if a.kmsEncryptionContext ≠ "" then
        ["--aws-kms-encryption-context", a.kmsEncryptionContext]
       else [])
  | none =>
  match usc.alibaba with
  | some al =>
      ["--alibaba-kms-region", al.kmsRegion,
       "--alibaba-kms-key-id", al.kmsKeyID,
       "--alibaba-oss-endpoint", al.ossEndpoint,
       "--alibaba-oss-bucket", al.ossBucket,
       "--alibaba-oss-prefix", al.ossPrefix]
  | none =>
  match usc.vault with
  | some vt =>
      ["--vault-addr", vt.address,
       "--vault-unseal-keys-path", vt.unsealKeysPath] ++
      (if vt.token ≠ "" then ["--vault-token", vt.token]
       else if vt.tokenPath ≠ "" then ["--vault-token-path", vt.tokenPath]
       else if vt.role ≠ "" then
         ["--vault-role", vt.role, "--vault-auth-path", vt.authPath]
       else [])
  | none =>
  match usc.hsm with
  | some h =>
      ["--hsm-module-path", h.modulePath,
       "--hsm-slot-id", toString h.slotID,
       "--hsm-key-label", h.keyLabel] ++
      (if h.pin ≠ "" then ["--hsm-pin", h.pin] else []) ++
      (if h.tokenLabel ≠ "" then ["--hsm-token-label", h.tokenLabel] else []) ++
      (if usc.kubernetes.secretNamespace ≠ "" ∧ usc.kubernetes.secretName ≠ "" then
        ["--k8s-secret-namespace", usc.kubernetes.secretNamespace,
         "--k8s-secret-name", usc.kubernetes.secretName,
         "--k8s-secret-labels", sel]
       else [])
  | none =>
      ["--k8s-secret-namespace",
       (if usc.kubernetes.secretNamespace ≠ "" then usc.kubernetes.secretNamespace
        else vault.nspace),
       "--k8s-secret-name",
       (if usc.kubernetes.secretName ≠ "" then usc.kubernetes.secretName
        else vault.name ++ "-unseal-keys"),
       "--k8s-secret-labels", sel]

/-- Whether an association list defines a key. -/
def containsKey (l : List (String × JSON)) (k : String) : Bool :=
  l.any (fun kv => kv.1 == k)

mutual
/-- Modelled from the spec: `mergo.Merge` lives in the external mergo
library, absent from src/. Per the specification the merge is a deep merge
into the destination document in which an existing key is never removed or
overwritten — a conflicting key is a silent no-op unless both sides hold
objects, in which case the merge recurses; keys only the source defines
are added. A non-object destination or source leaves the destination
unchanged. -/
def deepMerge : JSON → JSON → JSON
  | .obj d, .obj s =>
      .obj (mergeEntries d s ++ s.filter (fun kv => !containsKey d kv.1))
  | d, _ => d

/-- The destination entries of a deep merge: every destination entry keeps
its key; its value recursively merges with the source value at the same
key when one exists. -/
def mergeEntries : List (String × JSON) → List (String × JSON) → List (String × JSON)
  | [], _ => []
  | (k, v) :: rest, s =>
      (k, match lookupKV s k with
          | some sv => deepMerge v sv
          | none => v) :: mergeEntries rest s
end

/-- The `service_registration.kubernetes.namespace` fragment that
`ConfigJSON` merges into the document. -/
def serviceRegistrationFragment (ns : String) : JSON :=
  .obj [("service_registration",
         .obj [("kubernetes", .obj [("namespace", .str ns)])])]

/-- `ConfigJSON` returns the configuration document, with the
service-registration fragment deep-merged in when service registration is
enabled and HA storage is active. (The Go function unmarshals the raw
bytes first and marshals the result back; the embedding works on the
parsed tree, which is the identical document.) -/
def Vault.ConfigJSON (vault : Vault) : JSON :=
  if vault.spec.serviceRegistrationEnabled && vault.spec.HasHAStorage then
    deepMerge vault.spec.config (serviceRegistrationFragment vault.nspace)
  else vault.spec.config

/-- Lookup of a value along a path of object keys; `some` exactly when
every key on the path is defined. -/
def pathLookup : JSON → List String → Option JSON
  | j, [] => some j
  | .obj kvs, k :: rest =>
      match lookupKV kvs k with
      | some v => pathLookup v rest
      | none => none
  | _, _ :: _ => none

/-- Whether a document node is an object. -/
def JSON.isObjB : JSON → Bool
  | .obj _ => true
  | _ => false

/-- Lookup in a Go string map embedded as an association list. -/
def mapGet : List (String × String) → String → Option String
  | [], _ => none
  | (k, v) :: rest, key => if k = key then some v else mapGet rest key

/-- Whether a string association list defines a key. -/
def containsKeyS (m : List (String × String)) (k : String) : Bool :=
  m.any (fun kv => kv.1 == k)

/-- Replaces the value stored under an existing key (helper of `mapSet`). -/
def setExisting : List (String × String) → String → String → List (String × String)
  | [], _, _ => []
  | (k0, v0) :: rest, k, v =>
      if k0 = k then (k, v) :: setExisting rest k v
      else (k0, v0) :: setExisting rest k v

/-- Embedding of Go map assignment `m[k] = v`: replaces the value of an
existing key, otherwise adds the entry. -/
def mapSet (m : List (String × String)) (k v : String) : List (String × String) :=
  if containsKeyS m k then setExisting m k v
  else m ++ [(k, v)]

/-- The three ingress-controller-specific backend-protocol annotation
assignments performed by GetIngress when TLS is enabled: the NGINX
backend-protocol, the Traefik protocol, and the HAProxy secure-backends
conventions. -/
def tlsAnnotate (m : List (String × String)) : List (String × String) :=
  mapSet (mapSet (mapSet m
    "nginx.ingress.kubernetes.io/backend-protocol" "HTTPS")
    "ingress.kubernetes.io/protocol" "https")
    "ingress.kubernetes.io/secure-backends" "true"

/-- `GetIngress` returns the Ingress configuration for Vault if any: with
no rules and no default backend it synthesizes a default backend pointing
at the cluster's own service on port 8200, and when TLS is enabled it sets
the three ingress-controller-specific backend-protocol annotations. -/
def Vault.GetIngress (vault : Vault) : Option Ingress :=
  match vault.spec.ingress with
  | none => none
  | some ing =>
      let ing :=
        if ing.spec.rules.length == 0 && ing.spec.defaultBackend.isNone then
          { ing with spec :=
              { ing.spec with defaultBackend :=
                  (some (IngressBackend.mk (some (IngressServiceBackend.mk
                    vault.name (ServiceBackendPort.mk 8200))))) } }
        else ing
      let ing :=
        if !vault.spec.IsTLSDisabled then
          { ing with annotations := tlsAnnotate ing.annotations }
        else ing
      some ing

/-- The zero value of `UnsealConfig`: no options, no Kubernetes overrides,
no backend variant set. -/
def uscDefault : UnsealConfig :=
  { options := ⟨none, none, none, none⟩, kubernetes := ⟨"", ""⟩,
    google := none, alibaba := none, azure := none, aws := none,
    oci := none, vault := none, hsm := none }

/-- A VaultSpec with empty optional fields and an empty document. -/
def specStub : VaultSpec :=
  { image := "", tlsExpiryThreshold := "", serviceRegistrationEnabled := false,
    config := .obj [], ingress := none, unsealConfig := uscDefault }

/-- A VaultSpec whose document declares storage stanza raft with empty
parameters and no ha_storage. -/
def raftOnlySpec : VaultSpec :=
  { specStub with config := .obj [("storage", .obj [("raft", .obj [])])] }

/-- Follows the specification's words: the HA verdict is true if (a) the
storage backend type is a member of the HA storage type table and the
storage backend's parameters assert ha_enabled = true, with consul and
raft treated as unconditionally HA regardless of that flag, or (b) a
non-empty ha_storage stanza exists. -/
def hasHA_fromSpec (spec : VaultSpec) : Bool :=
  (HAStorageTypes.contains spec.GetStorageType &&
    (castToBool (lookupKV (toStringMap (lookupKV spec.getStorage spec.GetStorageType)) "ha_enabled") ||
     spec.GetStorageType == "consul" || spec.GetStorageType == "raft")) ||
  !spec.getHAStorage.isEmpty

theorem bool_shuffle (a b c d e : Bool) :
    ((a && (b || c || d)) || e) = ((a && (d || b || c)) || e) := by
  cases a <;> cases b <;> cases c <;> cases d <;> cases e <;> rfl

/-- C2: for every configuration document the HA verdict (HasHAStorage) is
true iff (a) the storage type is in the HA table and the storage
parameters assert ha_enabled = true, with consul and raft unconditionally
HA, or (b) a non-empty ha_storage stanza exists; and for storage stanza
raft with empty parameters and no ha_storage, the verdict is true and the
storage type is raft. -/
theorem C2_ha_verdict :
    (∀ spec : VaultSpec, spec.HasHAStorage = hasHA_fromSpec spec) ∧
    raftOnlySpec.HasHAStorage = true ∧ raftOnlySpec.GetStorageType = "raft" := by
  refine ⟨fun spec => ?_, rfl, rfl⟩
  simp only [VaultSpec.HasHAStorage, hasHA_fromSpec, VaultSpec.HasStorageHAEnabled,
    VaultSpec.hasHAStorageStanza]
  exact bool_shuffle _ _ _ _ _

/-- C7: for every image reference string, the version resolver fails with
the invalid-reference error when the reference does not parse, fails with
the missing-tag error when the parsed reference has no tag component
(digest-only references rejected), and otherwise parses the tag as a
semantic version, failing on malformed tags and succeeding on well-formed
ones; concretely repo/image:1.2.3 yields 1.2.3, repo/image fails with the
missing-tag error, and repo/image:latest fails version parsing. -/
theorem C7_get_version (spec : VaultSpec) :
    (parseAnyReference spec.image = none →
      spec.GetVersion = .error .invalidReference) ∧
    (∀ ref, parseAnyReference spec.image = some ref → ref.tag = none →
      spec.GetVersion = .error .missingTag) ∧
    (∀ ref t, parseAnyReference spec.image = some ref → ref.tag = some t →
      semverParse t = none → spec.GetVersion = .error .invalidVersion) ∧
    (∀ ref t v, parseAnyReference spec.image = some ref → ref.tag = some t →
      semverParse t = some v → spec.GetVersion = .ok v) ∧
    ({ specStub with image := "repo/image:1.2.3" } : VaultSpec).GetVersion =
      .ok ⟨1, 2, 3⟩ ∧
    ({ specStub with image := "repo/image" } : VaultSpec).GetVersion =
      .error .missingTag ∧
    ({ specStub with image := "repo/image:latest" } : VaultSpec).GetVersion =
      .error .invalidVersion := by
  refine ⟨fun h => ?_, fun ref h1 h2 => ?_, fun ref t h1 h2 h3 => ?_,
          fun ref t v h1 h2 h3 => ?_, rfl, rfl, rfl⟩
  · simp [VaultSpec.GetVersion, h]
  · simp [VaultSpec.GetVersion, h1, h2]
  · simp [VaultSpec.GetVersion, h1, h2, h3]
  · simp [VaultSpec.GetVersion, h1, h2, h3]

/-- Witness for C7, one concrete input per tier: an unparsable (empty)
reference, a digest-only reference (parsed, no tag component), a
malformed tag, and a well-formed tag. -/
theorem C7_get_version_witness :
    ({ specStub with image := "" } : VaultSpec).GetVersion =
      .error .invalidReference ∧
    ({ specStub with image := "repo/image@sha256:abc" } : VaultSpec).GetVersion =
      .error .missingTag ∧
    ({ specStub with image := "repo/image:latest" } : VaultSpec).GetVersion =
      .error .invalidVersion ∧
    ({ specStub with image := "repo/image:1.2.3" } : VaultSpec).GetVersion =
      .ok ⟨1, 2, 3⟩ :=
  ⟨(C7_get_version _).1 rfl,
   (C7_get_version _).2.1 ⟨"repo/image", none⟩ rfl rfl,
   (C7_get_version _).2.2.1 ⟨"repo/image", some "latest"⟩ "latest" rfl rfl rfl,
   (C7_get_version _).2.2.2.1 ⟨"repo/image", some "1.2.3"⟩ "1.2.3" ⟨1, 2, 3⟩ rfl rfl rfl⟩

/-- C8: the TLS expiry threshold resolves to the parsed duration when the
field parses, and to the hard-coded default of 168 hours both when the
field is empty and when it is malformed. -/
theorem C8_tls_expiry_threshold (spec : VaultSpec) :
    (spec.tlsExpiryThreshold = "" →
      spec.GetTLSExpiryThreshold = 168 * 3600000000000) ∧
    (ParseDuration spec.tlsExpiryThreshold = none →
      spec.GetTLSExpiryThreshold = 168 * 3600000000000) ∧
    (∀ d, ParseDuration spec.tlsExpiryThreshold = some d →
      spec.GetTLSExpiryThreshold = d) := by
  refine ⟨fun h => by simp [VaultSpec.GetTLSExpiryThreshold, h], fun h => ?_, fun d h => ?_⟩
  · by_cases he : spec.tlsExpiryThreshold = ""
    · simp [VaultSpec.GetTLSExpiryThreshold, he]
    · simp [VaultSpec.GetTLSExpiryThreshold, he, h]
  · by_cases he : spec.tlsExpiryThreshold = ""
    · rw [he] at h
      rw [show ParseDuration "" = none from rfl] at h
      exact Option.noConfusion h
    · simp [VaultSpec.GetTLSExpiryThreshold, he, h]

/-- Witness for C8 at concrete inputs: a parsable threshold of 24 hours,
a malformed threshold, and an empty threshold. -/
theorem C8_tls_expiry_threshold_witness :
    ({ specStub with tlsExpiryThreshold := "24h" } : VaultSpec).GetTLSExpiryThreshold =
      86400000000000 ∧
    ({ specStub with tlsExpiryThreshold := "bogus" } : VaultSpec).GetTLSExpiryThreshold =
      168 * 3600000000000 ∧
    ({ specStub with tlsExpiryThreshold := "" } : VaultSpec).GetTLSExpiryThreshold =
      168 * 3600000000000 := by
  refine ⟨(C8_tls_expiry_threshold _).2.2 86400000000000 (by decide),
          (C8_tls_expiry_threshold _).2.1 (by decide),
          (C8_tls_expiry_threshold _).1 rfl⟩

theorem charListLe_total : ∀ a b : List Char, charListLe a b = true ∨ charListLe b a = true
  | [], _ => Or.inl rfl
  | _ :: _, [] => Or.inr rfl
  | a :: as, b :: bs => by
      by_cases hab : a < b
      · exact Or.inl (by simp [charListLe, hab])
      · by_cases hba : b < a
        · exact Or.inr (by simp [charListLe, hba])
        · rcases charListLe_total as bs with h | h
          · exact Or.inl (by simp [charListLe, hab, hba, h])
          · exact Or.inr (by simp [charListLe, hba, hab, h])

theorem charListLe_trans :
    ∀ a b c : List Char, charListLe a b = true → charListLe b c = true →
      charListLe a c = true
  | [], _, _, _, _ => rfl
  | _ :: _, [], _, h1, _ => by simp [charListLe] at h1
  | _ :: _, _ :: _, [], _, h2 => by simp [charListLe] at h2
  | x :: xs, y :: ys, z :: zs, h1, h2 => by
      simp only [charListLe] at h1 h2 ⊢
      by_cases hxy : x < y
      · by_cases hyz : y < z
        · simp [lt_trans hxy hyz]
        · by_cases hzy : z < y
          · simp [hyz, hzy] at h2
          · have hyzeq : y = z := le_antisymm (not_lt.mp hzy) (not_lt.mp hyz)
            subst hyzeq
            simp [hxy]
      · by_cases hyx : y < x
        · simp [hxy, hyx] at h1
        · have hxyeq : x = y := le_antisymm (not_lt.mp hyx) (not_lt.mp hxy)
          subst hxyeq
          by_cases hxz : x < z
          · simp [hxz]
          · by_cases hzx : z < x
            · simp [hxz, hzx] at h2
            · simp only [if_neg hxy, if_neg hyx, if_neg hxz, if_neg hzx] at h1 h2 ⊢
              exact charListLe_trans xs ys zs h1 h2

theorem charListLe_antisymm :
    ∀ a b : List Char, charListLe a b = true → charListLe b a = true → a = b
  | [], [], _, _ => rfl
  | [], _ :: _, _, h2 => by simp [charListLe] at h2
  | _ :: _, [], h1, _ => by simp [charListLe] at h1
  | x :: xs, y :: ys, h1, h2 => by
      simp only [charListLe] at h1 h2
      by_cases hxy : x < y
      · simp [lt_asymm hxy, hxy] at h2
      · by_cases hyx : y < x
        · simp [hxy, hyx] at h1
        · have hx : x = y := le_antisymm (not_lt.mp hyx) (not_lt.mp hxy)
          subst hx
          simp only [if_neg hxy, if_neg hyx] at h1 h2
          exact congrArg (List.cons x) (charListLe_antisymm xs ys h1 h2)

theorem strLe_total (a b : String) : strLe a b = true ∨ strLe b a = true :=
  charListLe_total a.data b.data

theorem strLe_trans {a b c : String} (h1 : strLe a b = true)
    (h2 : strLe b c = true) : strLe a c = true :=
  charListLe_trans a.data b.data c.data h1 h2

theorem strLe_antisymm {a b : String} (h1 : strLe a b = true)
    (h2 : strLe b a = true) : a = b := by
  have h := charListLe_antisymm a.data b.data h1 h2
  cases a
  cases b
  exact congrArg String.mk h

instance : IsAntisymm String (fun a b => strLe a b = true) :=
  ⟨fun _ _ h1 h2 => strLe_antisymm h1 h2⟩

theorem insertStr_perm (s : String) (l : List String) :
    List.Perm (insertStr s l) (s :: l) := by
  induction l with
  | nil => simp [insertStr]
  | cons t ts ih =>
      by_cases h : strLe s t = true
      · simp [insertStr, h]
      · simp only [insertStr, if_neg h]
        exact (ih.cons t).trans (List.Perm.swap s t ts)

theorem insertStr_sorted (s : String) (l : List String)
    (h : List.Sorted (fun a b => strLe a b = true) l) :
    List.Sorted (fun a b => strLe a b = true) (insertStr s l) := by
  induction l with
  | nil => simp [insertStr]
  | cons t ts ih =>
      rcases List.sorted_cons.mp h with ⟨ht, hts⟩
      by_cases hst : strLe s t = true
      · simp only [insertStr, if_pos hst]
        exact List.sorted_cons.mpr ⟨fun b hb => by
          rcases List.mem_cons.mp hb with hb | hb
          · exact hb ▸ hst
          · exact strLe_trans hst (ht b hb), h⟩
      · simp only [insertStr, if_neg hst]
        refine List.sorted_cons.mpr ⟨fun b hb => ?_, ih hts⟩
        rcases List.mem_cons.mp ((insertStr_perm s ts).mem_iff.mp hb) with hb | hb
        · exact hb ▸ (strLe_total s t).resolve_left hst
        · exact ht b hb

theorem sortStrings_perm (l : List String) : List.Perm (sortStrings l) l := by
  induction l with
  | nil => rfl
  | cons s ss ih => exact (insertStr_perm s (sortStrings ss)).trans (ih.cons s)

theorem sortStrings_sorted (l : List String) :
    List.Sorted (fun a b => strLe a b = true) (sortStrings l) := by
  induction l with
  | nil => simp [sortStrings]
  | cons s ss ih => exact insertStr_sorted s (sortStrings ss) ih

theorem sortStrings_eq_of_perm {l₁ l₂ : List String} (h : List.Perm l₁ l₂) :
    sortStrings l₁ = sortStrings l₂ :=
  List.eq_of_perm_of_sorted
    ((sortStrings_perm l₁).trans (h.trans (sortStrings_perm l₂).symm))
    (sortStrings_sorted l₁) (sortStrings_sorted l₂)

theorem selectorString_eq_of_perm {o₁ o₂ : List (String × String)}
    (h : List.Perm o₁ o₂) : selectorString o₁ = selectorString o₂ := by
  unfold selectorString labelPairs
  rw [sortStrings_eq_of_perm (h.map _)]

/-- C6: the synthesized argument list, and in particular the
`--k8s-secret-labels` selector value, is identical across any two
iteration orders of the same label map (the entries are sorted ascending
before being comma-joined), and the emitted entry list is always sorted
ascending. -/
theorem C6_selector_deterministic :
    (∀ (usc : UnsealConfig) (vault : Vault) (o₁ o₂ : List (String × String)),
       List.Perm o₁ o₂ → usc.ToArgs vault o₁ = usc.ToArgs vault o₂) ∧
    (∀ o : List (String × String),
       List.Sorted (fun a b => strLe a b = true) (labelPairs o)) := by
  constructor
  · intro usc vault o₁ o₂ h
    unfold UnsealConfig.ToArgs
    rw [selectorString_eq_of_perm h]
  · intro o
    exact sortStrings_sorted _

/-- Witness for C6: two opposite iteration orders of the label map of a
cluster named test produce identical argument lists. -/
theorem C6_selector_deterministic_witness :
    uscDefault.ToArgs ⟨"test", "default", specStub⟩
        [("app.kubernetes.io/name", "vault"), ("vault_cr", "test")] =
      uscDefault.ToArgs ⟨"test", "default", specStub⟩
        [("vault_cr", "test"), ("app.kubernetes.io/name", "vault")] :=
  C6_selector_deterministic.1 uscDefault ⟨"test", "default", specStub⟩ _ _
    (by decide)

/-- A concrete cluster identity used by the concrete scenarios. -/
def vaultTest : Vault := ⟨"test", "default", specStub⟩

theorem toArgs_shape (usc : UnsealConfig) (vault : Vault)
    (o : List (String × String)) :
    usc.ToArgs vault o =
      optionsArgs usc.options ++
        "--mode" :: modeNameOf usc (selectVariant usc) ::
          modeTail usc vault (selectorString o) := by
  cases hg : usc.google with
  | some g =>
      simp [UnsealConfig.ToArgs, ToArgsCore, selectVariant, modeNameOf, modeTail, hg]
  | none =>
  cases ha : usc.azure with
  | some az =>
      simp [UnsealConfig.ToArgs, ToArgsCore, selectVariant, modeNameOf, modeTail, hg, ha]
  | none =>
  cases ho : usc.oci with
  | some oc =>
      simp [UnsealConfig.ToArgs, ToArgsCore, selectVariant, modeNameOf, modeTail, hg, ha, ho]
  | none =>
  cases hw : usc.aws with
  | some a =>
      simp [UnsealConfig.ToArgs, ToArgsCore, selectVariant, modeNameOf, modeTail, hg, ha, ho, hw]
  | none =>
  cases hl : usc.alibaba with
  | some al =>
      simp [UnsealConfig.ToArgs, ToArgsCore, selectVariant, modeNameOf, modeTail,
        hg, ha, ho, hw, hl]
  | none =>
  cases hv : usc.vault with
  | some vt =>
      simp [UnsealConfig.ToArgs, ToArgsCore, selectVariant, modeNameOf, modeTail,
        hg, ha, ho, hw, hl, hv]
  | none =>
  cases hh : usc.hsm with
  | some h =>
      simp [UnsealConfig.ToArgs, ToArgsCore, selectVariant, modeNameOf, modeTail,
        hg, ha, ho, hw, hl, hv, hh]
  | none =>
      simp [UnsealConfig.ToArgs, ToArgsCore, selectVariant, modeNameOf, modeTail,
        hg, ha, ho, hw, hl, hv, hh]

/-- C1: for every unseal configuration and cluster identity, the
synthesized arguments are the cross-cutting option flags followed by a
single `--mode` token pair whose value is determined by the spec's
fixed-priority selector (Google, Azure, Oracle, AWS, Alibaba,
remote-server, HSM, else the Kubernetes-secret default), followed by the
selected variant's own flags — so at most one backend's mode pair is
emitted and the cross-cutting flags always precede the mode-specific
flags. -/
theorem C1_unseal_priority (usc : UnsealConfig) (vault : Vault)
    (o : List (String × String)) :
    usc.ToArgs vault o =
      optionsArgs usc.options ++
        "--mode" :: modeNameOf usc (selectVariant usc) ::
          modeTail usc vault (selectorString o) :=
  toArgs_shape usc vault o

/-- C10: the synthesized argument list always contains a `--mode` token
and is never empty; when none of the seven explicit variants is set, the
Kubernetes-secret default branch runs, with the secret namespace
defaulting to the cluster's own namespace and the secret name to
name-unseal-keys unless overridden. -/
theorem C10_mode_always_emitted (usc : UnsealConfig) (vault : Vault)
    (o : List (String × String)) :
    usc.ToArgs vault o ≠ [] ∧ "--mode" ∈ usc.ToArgs vault o ∧
    (usc.google = none → usc.azure = none → usc.oci = none → usc.aws = none →
     usc.alibaba = none → usc.vault = none → usc.hsm = none →
     usc.ToArgs vault o =
       optionsArgs usc.options ++
         ["--mode", "k8s",
          "--k8s-secret-namespace",
          (if usc.kubernetes.secretNamespace ≠ "" then usc.kubernetes.secretNamespace
           else vault.nspace),
          "--k8s-secret-name",
          (if usc.kubernetes.secretName ≠ "" then usc.kubernetes.secretName
           else vault.name ++ "-unseal-keys"),
          "--k8s-secret-labels", selectorString o]) := by
  have h := toArgs_shape usc vault o
  refine ⟨?_, ?_, ?_⟩
  · intro hc
    rw [h] at hc
    exact absurd (List.append_eq_nil.mp hc).2 (by simp)
  · rw [h]
    exact List.mem_append.mpr (Or.inr (List.mem_cons_self _ _))
  · intro h1 h2 h3 h4 h5 h6 h7
    simp [UnsealConfig.ToArgs, ToArgsCore, h1, h2, h3, h4, h5, h6, h7]

/-- Witness for C10: the all-default configuration of a cluster named
test in namespace default yields exactly the defaulted k8s mode
arguments. -/
theorem C10_mode_always_emitted_witness :
    uscDefault.ToArgs vaultTest vaultTest.LabelsForVault =
      ["--mode", "k8s", "--k8s-secret-namespace", "default",
       "--k8s-secret-name", "test-unseal-keys", "--k8s-secret-labels",
       "app.kubernetes.io/name=vault,vault_cr=test"] := by
  have h := (C10_mode_always_emitted uscDefault vaultTest
    vaultTest.LabelsForVault).2.2 rfl rfl rfl rfl rfl rfl rfl
  rw [h]
  decide

/-- An unseal configuration with only the AWS variant set. -/
def awsOnly (a : AWSUnsealConfig) : UnsealConfig :=
  { uscDefault with aws := some a }

/-- C3: with only the AWS variant set and KMS key id k1, KMS region r1,
S3 bucket b1, S3 prefix p1 and the remaining fields empty, ToArgs returns
exactly the twelve AWS tokens in order, with empty optional fields still
emitted as empty tokens; and in general the encryption-context flag pair
is appended exactly when the encryption context is non-empty. -/
theorem C3_aws_scenario :
    ((awsOnly ⟨"k1", "r1", "", "b1", "p1", "", ""⟩).ToArgs vaultTest
        vaultTest.LabelsForVault =
      ["--mode", "aws-kms-s3", "--aws-kms-key-id", "k1", "--aws-kms-region", "r1",
       "--aws-s3-bucket", "b1", "--aws-s3-prefix", "p1", "--aws-s3-region", "",
       "--aws-s3-sse-algo", ""]) ∧
    (∀ (usc : UnsealConfig) (vault : Vault) (o : List (String × String))
       (a : AWSUnsealConfig),
       usc.google = none → usc.azure = none → usc.oci = none → usc.aws = some a →
       (a.kmsEncryptionContext = "" →
         usc.ToArgs vault o =
           optionsArgs usc.options ++
             ["--mode", "aws-kms-s3", "--aws-kms-key-id", a.kmsKeyID,
              "--aws-kms-region", a.kmsRegion, "--aws-s3-bucket", a.s3Bucket,
              "--aws-s3-prefix", a.s3Prefix, "--aws-s3-region", a.s3Region,
              "--aws-s3-sse-algo", a.s3SSE]) ∧
       (a.kmsEncryptionContext ≠ "" →
         usc.ToArgs vault o =
           optionsArgs usc.options ++
             ["--mode", "aws-kms-s3", "--aws-kms-key-id", a.kmsKeyID,
              "--aws-kms-region", a.kmsRegion, "--aws-s3-bucket", a.s3Bucket,
              "--aws-s3-prefix", a.s3Prefix, "--aws-s3-region", a.s3Region,
              "--aws-s3-sse-algo", a.s3SSE,
              "--aws-kms-encryption-context", a.kmsEncryptionContext])) := by
  constructor
  · decide
  · intro usc vault o a hg ha ho hw
    constructor
    · intro hctx
      simp [UnsealConfig.ToArgs, ToArgsCore, hg, ha, ho, hw, hctx]
    · intro hctx
      simp [UnsealConfig.ToArgs, ToArgsCore, hg, ha, ho, hw, hctx]

/-- Witness for C3 at a concrete input with a non-empty encryption
context. -/
theorem C3_aws_scenario_witness :
    (awsOnly ⟨"k1", "r1", "ctx1", "b1", "p1", "", ""⟩).ToArgs vaultTest
        vaultTest.LabelsForVault =
      ["--mode", "aws-kms-s3", "--aws-kms-key-id", "k1", "--aws-kms-region", "r1",
       "--aws-s3-bucket", "b1", "--aws-s3-prefix", "p1", "--aws-s3-region", "",
       "--aws-s3-sse-algo", "", "--aws-kms-encryption-context", "ctx1"] := by
  have h := ((C3_aws_scenario.2 (awsOnly ⟨"k1", "r1", "ctx1", "b1", "p1", "", ""⟩)
    vaultTest vaultTest.LabelsForVault ⟨"k1", "r1", "ctx1", "b1", "p1", "", ""⟩
    rfl rfl rfl rfl).2 (by decide))
  exact h.trans rfl

/-- An unseal configuration with only the remote-server variant set. -/
def vaultRemoteOnly (vt : VaultUnsealConfig) : UnsealConfig :=
  { uscDefault with vault := some vt }

/-- C5 counterexample: an unseal configuration in which the remote-server
variant is selected but the token, token-path and role fields are all
empty emits none of the three credential forms, refuting that exactly one
is always emitted. -/
theorem C5_counterexample :
    (vaultRemoteOnly ⟨"addr1", "path1", "", "", "", ""⟩).ToArgs vaultTest
        vaultTest.LabelsForVault =
      ["--mode", "vault", "--vault-addr", "addr1",
       "--vault-unseal-keys-path", "path1"] ∧
    "--vault-token" ∉ (vaultRemoteOnly ⟨"addr1", "path1", "", "", "", ""⟩).ToArgs
        vaultTest vaultTest.LabelsForVault ∧
    "--vault-token-path" ∉ (vaultRemoteOnly ⟨"addr1", "path1", "", "", "", ""⟩).ToArgs
        vaultTest vaultTest.LabelsForVault ∧
    "--vault-role" ∉ (vaultRemoteOnly ⟨"addr1", "path1", "", "", "", ""⟩).ToArgs
        vaultTest vaultTest.LabelsForVault := by
  refine ⟨by decide, by decide, by decide, by decide⟩

/-- C5 (amended): when the remote-server variant is selected, at most one
of the literal token, the token-file path, or the role with auth path is
emitted, by the fixed precedence literal token, else token path, else
role; when all three fields are empty none of them is emitted. -/
theorem C5_credential_precedence (usc : UnsealConfig) (vault : Vault)
    (o : List (String × String)) (vt : VaultUnsealConfig)
    (hg : usc.google = none) (ha : usc.azure = none) (ho : usc.oci = none)
    (hw : usc.aws = none) (hl : usc.alibaba = none) (hv : usc.vault = some vt) :
    (vt.token ≠ "" →
      usc.ToArgs vault o =
        optionsArgs usc.options ++
          ["--mode", "vault", "--vault-addr", vt.address,
           "--vault-unseal-keys-path", vt.unsealKeysPath,
           "--vault-token", vt.token]) ∧
    (vt.token = "" → vt.tokenPath ≠ "" →
      usc.ToArgs vault o =
        optionsArgs usc.options ++
          ["--mode", "vault", "--vault-addr", vt.address,
           "--vault-unseal-keys-path", vt.unsealKeysPath,
           "--vault-token-path", vt.tokenPath]) ∧
    (vt.token = "" → vt.tokenPath = "" → vt.role ≠ "" →
      usc.ToArgs vault o =
        optionsArgs usc.options ++
          ["--mode", "vault", "--vault-addr", vt.address,
           "--vault-unseal-keys-path", vt.unsealKeysPath,
           "--vault-role", vt.role, "--vault-auth-path", vt.authPath]) ∧
    (vt.token = "" → vt.tokenPath = "" → vt.role = "" →
      usc.ToArgs vault o =
        optionsArgs usc.options ++
          ["--mode", "vault", "--vault-addr", vt.address,
           "--vault-unseal-keys-path", vt.unsealKeysPath]) := by
  refine ⟨fun h1 => ?_, fun h1 h2 => ?_, fun h1 h2 h3 => ?_, fun h1 h2 h3 => ?_⟩
  · simp [UnsealConfig.ToArgs, ToArgsCore, hg, ha, ho, hw, hl, hv, h1]
  · simp [UnsealConfig.ToArgs, ToArgsCore, hg, ha, ho, hw, hl, hv, h1, h2]
  · simp [UnsealConfig.ToArgs, ToArgsCore, hg, ha, ho, hw, hl, hv, h1, h2, h3]
  · simp [UnsealConfig.ToArgs, ToArgsCore, hg, ha, ho, hw, hl, hv, h1, h2, h3]

/-- Witness for C5 (amended): a literal token wins over a token path. -/
theorem C5_credential_precedence_witness :
    (vaultRemoteOnly ⟨"addr1", "path1", "role1", "auth1", "tp1", "tok1"⟩).ToArgs
        vaultTest vaultTest.LabelsForVault =
      ["--mode", "vault", "--vault-addr", "addr1",
       "--vault-unseal-keys-path", "path1", "--vault-token", "tok1"] := by
  have h := (C5_credential_precedence
    (vaultRemoteOnly ⟨"addr1", "path1", "role1", "auth1", "tp1", "tok1"⟩)
    vaultTest vaultTest.LabelsForVault ⟨"addr1", "path1", "role1", "auth1", "tp1", "tok1"⟩
    rfl rfl rfl rfl rfl rfl).1 (by decide)
  exact h.trans rfl

theorem lookupKV_append_some {l₁ : List (String × JSON)} (l₂ : List (String × JSON))
    {k : String} {v : JSON} (h : lookupKV l₁ k = some v) :
    lookupKV (l₁ ++ l₂) k = some v := by
  induction l₁ with
  | nil => simp [lookupKV] at h
  | cons kv rest ih =>
      rcases kv with ⟨k0, v0⟩
      by_cases hk : k0 = k
      · simp only [List.cons_append, lookupKV, if_pos hk] at h ⊢
        exact h
      · simp only [List.cons_append, lookupKV, if_neg hk] at h ⊢
        exact ih h

theorem mergeEntries_lookup {d : List (String × JSON)} (s : List (String × JSON))
    {k : String} {u : JSON} (h : lookupKV d k = some u) :
    lookupKV (mergeEntries d s) k =
      some (match lookupKV s k with
            | some sv => deepMerge u sv
            | none => u) := by
  induction d with
  | nil => simp [lookupKV] at h
  | cons kv rest ih =>
      rcases kv with ⟨k0, v0⟩
      by_cases hk : k0 = k
      · subst hk
        simp only [lookupKV, if_pos rfl] at h
        injection h with h
        subst h
        simp [mergeEntries, lookupKV]
      · simp only [lookupKV, if_neg hk] at h
        simp only [mergeEntries, lookupKV, if_neg hk]
        exact ih h

theorem deepMerge_nonObj {d : JSON} (s : JSON) (h : d.isObjB = false) :
    deepMerge d s = d := by
  cases d
  case obj kvs => simp [JSON.isObjB] at h
  all_goals cases s <;> simp [deepMerge]

theorem deepMerge_preserves (p : List String) :
    ∀ (d s v : JSON), pathLookup d p = some v →
      ∃ w, pathLookup (deepMerge d s) p = some w ∧ (v.isObjB = false → w = v) := by
  induction p with
  | nil =>
      intro d s v h
      simp only [pathLookup] at h
      injection h with h
      subst h
      exact ⟨deepMerge d s, by simp [pathLookup], fun hv => deepMerge_nonObj s hv⟩
  | cons k rest ih =>
      intro d s v h
      cases d
      case obj kvs =>
        simp only [pathLookup] at h
        cases hu : lookupKV kvs k with
        | none => rw [hu] at h; exact Option.noConfusion h
        | some u =>
            rw [hu] at h
            cases s
            case obj sl =>
              have hm := mergeEntries_lookup sl hu
              cases hsv : lookupKV sl k with
              | some sv =>
                  rw [hsv] at hm
                  obtain ⟨w, hw, hwv⟩ := ih u sv v h
                  refine ⟨w, ?_, hwv⟩
                  simp only [deepMerge, pathLookup]
                  rw [lookupKV_append_some _ hm]
                  exact hw
              | none =>
                  rw [hsv] at hm
                  refine ⟨v, ?_, fun _ => rfl⟩
                  simp only [deepMerge, pathLookup]
                  rw [lookupKV_append_some _ hm]
                  exact h
            all_goals
              refine ⟨v, ?_, fun _ => rfl⟩
              simp only [deepMerge, pathLookup]
              rw [hu]
              exact h
      all_goals simp [pathLookup] at h

/-- C4: when service registration is disabled or HA storage is not
active, ConfigJSON passes the document through unchanged; and the merge
of the service-registration fragment never removes a key the user
document defines at any depth nor overwrites any of its non-object
values. -/
theorem C4_config_merge (vault : Vault) (p : List String) (v : JSON) :
    ((vault.spec.serviceRegistrationEnabled && vault.spec.HasHAStorage) = false →
      vault.ConfigJSON = vault.spec.config) ∧
    (pathLookup vault.spec.config p = some v →
      ∃ w, pathLookup vault.ConfigJSON p = some w ∧ (v.isObjB = false → w = v)) := by
  constructor
  · intro h
    simp [Vault.ConfigJSON, h]
  · intro h
    by_cases hc : (vault.spec.serviceRegistrationEnabled && vault.spec.HasHAStorage) = true
    · simp only [Vault.ConfigJSON, if_pos hc]
      exact deepMerge_preserves p _ _ v h
    · simp only [Vault.ConfigJSON, if_neg hc]
      exact ⟨v, h, fun _ => rfl⟩

/-- A cluster with service registration enabled, raft storage (so HA is
active) and a user-supplied service_registration.kubernetes.namespace. -/
def vaultC4 : Vault :=
  ⟨"test", "operator-ns",
   { specStub with
       serviceRegistrationEnabled := true,
       config := .obj
         [("storage", .obj [("raft", .obj [])]),
          ("service_registration",
           .obj [("kubernetes", .obj [("namespace", .str "user-ns")])])] }⟩

/-- Witness for C4: the user-defined namespace under the merge target
path survives the merge, and with service registration disabled the
document passes through. -/
theorem C4_config_merge_witness :
    (∃ w, pathLookup vaultC4.ConfigJSON
        ["service_registration", "kubernetes", "namespace"] = some w ∧
      ((JSON.str "user-ns").isObjB = false → w = .str "user-ns")) ∧
    (⟨"test", "ns1", specStub⟩ : Vault).ConfigJSON =
      (⟨"test", "ns1", specStub⟩ : Vault).spec.config :=
  ⟨(C4_config_merge vaultC4
      ["service_registration", "kubernetes", "namespace"] (.str "user-ns")).2 rfl,
   (C4_config_merge ⟨"test", "ns1", specStub⟩ [] .null).1 rfl⟩

theorem mapGet_setExisting_same (m : List (String × String)) (k v : String)
    (hc : containsKeyS m k = true) :
    mapGet (setExisting m k v) k = some v := by
  induction m with
  | nil => simp [containsKeyS] at hc
  | cons kv0 rest ih =>
      rcases kv0 with ⟨k0, v0⟩
      by_cases hk : k0 = k
      · simp [setExisting, hk, mapGet]
      · have hb : (k0 == k) = false := beq_eq_false_iff_ne.mpr hk
        have hc2 : containsKeyS rest k = true := by
          simpa [containsKeyS, hb] using hc
        simp only [setExisting, if_neg hk, mapGet]
        exact ih hc2

theorem mapGet_append_pair (m : List (String × String)) (k v : String)
    (hc : containsKeyS m k = false) :
    mapGet (m ++ [(k, v)]) k = some v := by
  induction m with
  | nil => simp [mapGet]
  | cons kv0 rest ih =>
      rcases kv0 with ⟨k0, v0⟩
      have hparts : (k0 == k) = false ∧ containsKeyS rest k = false := by
        simpa [containsKeyS] using hc
      have hk : ¬ k0 = k := ne_of_beq_false hparts.1
      simp only [List.cons_append, mapGet, if_neg hk]
      exact ih hparts.2

theorem mapGet_mapSet_same (m : List (String × String)) (k v : String) :
    mapGet (mapSet m k v) k = some v := by
  unfold mapSet
  by_cases hc : containsKeyS m k = true
  · simp only [if_pos hc]
    exact mapGet_setExisting_same m k v hc
  · simp only [Bool.not_eq_true] at hc
    simp only [hc, Bool.false_eq_true, if_false]
    exact mapGet_append_pair m k v hc

theorem mapGet_setExisting_other (m : List (String × String)) (k v key : String)
    (hne : key ≠ k) :
    mapGet (setExisting m k v) key = mapGet m key := by
  induction m with
  | nil => rfl
  | cons kv0 rest ih =>
      rcases kv0 with ⟨k0, v0⟩
      by_cases hk : k0 = k
      · have hne2 : ¬ k = key := fun h => hne h.symm
        have hne3 : ¬ k0 = key := by rw [hk]; exact hne2
        simp only [setExisting, if_pos hk, mapGet, if_neg hne2, if_neg hne3]
        exact ih
      · simp only [setExisting, if_neg hk, mapGet]
        by_cases hkey : k0 = key
        · simp [hkey]
        · simp only [if_neg hkey]
          exact ih

theorem mapGet_append_pair_other (m : List (String × String)) (k v key : String)
    (hne : key ≠ k) :
    mapGet (m ++ [(k, v)]) key = mapGet m key := by
  induction m with
  | nil =>
      have : ¬ k = key := fun h => hne h.symm
      simp [mapGet, this]
  | cons kv0 rest ih =>
      rcases kv0 with ⟨k0, v0⟩
      by_cases hkey : k0 = key
      · simp [mapGet, hkey]
      · simp only [List.cons_append, mapGet, if_neg hkey]
        exact ih

theorem mapGet_mapSet_other (m : List (String × String)) (k v key : String)
    (hne : key ≠ k) :
    mapGet (mapSet m k v) key = mapGet m key := by
  unfold mapSet
  by_cases hc : containsKeyS m k = true
  · simp only [if_pos hc]
    exact mapGet_setExisting_other m k v key hne
  · simp only [Bool.not_eq_true] at hc
    simp only [hc, Bool.false_eq_true, if_false]
    exact mapGet_append_pair_other m k v key hne

theorem tlsAnnotate_facts (m : List (String × String)) :
    mapGet (tlsAnnotate m) "nginx.ingress.kubernetes.io/backend-protocol" = some "HTTPS" ∧
    mapGet (tlsAnnotate m) "ingress.kubernetes.io/protocol" = some "https" ∧
    mapGet (tlsAnnotate m) "ingress.kubernetes.io/secure-backends" = some "true" ∧
    (∀ key, key ≠ "nginx.ingress.kubernetes.io/backend-protocol" →
      key ≠ "ingress.kubernetes.io/protocol" →
      key ≠ "ingress.kubernetes.io/secure-backends" →
      mapGet (tlsAnnotate m) key = mapGet m key) := by
  refine ⟨?_, ?_, ?_, ?_⟩
  · unfold tlsAnnotate
    rw [mapGet_mapSet_other _ _ _ _ (by decide), mapGet_mapSet_other _ _ _ _ (by decide),
      mapGet_mapSet_same]
  · unfold tlsAnnotate
    rw [mapGet_mapSet_other _ _ _ _ (by decide), mapGet_mapSet_same]
  · unfold tlsAnnotate
    rw [mapGet_mapSet_same]
  · intro key h1 h2 h3
    unfold tlsAnnotate
    rw [mapGet_mapSet_other _ _ _ _ h3, mapGet_mapSet_other _ _ _ _ h2,
      mapGet_mapSet_other _ _ _ _ h1]

/-- C9: for a non-nil ingress specification, GetIngress yields an ingress
whose default backend points at the cluster's own service on port 8200
whenever no rules and no default backend were declared, and, when TLS is
enabled, whose annotations bind the three controller-specific
backend-protocol keys while leaving every other user-supplied annotation
unchanged. -/
theorem C9_ingress_defaulting (vault : Vault) (ing : Ingress)
    (h : vault.spec.ingress = some ing) :
    ∃ ing2, vault.GetIngress = some ing2 ∧
      (ing.spec.rules = [] → ing.spec.defaultBackend = none →
        ing2.spec.defaultBackend =
          some (IngressBackend.mk (some (IngressServiceBackend.mk vault.name
            (ServiceBackendPort.mk 8200))))) ∧
      (vault.spec.IsTLSDisabled = false →
        mapGet ing2.annotations "nginx.ingress.kubernetes.io/backend-protocol" =
          some "HTTPS" ∧
        mapGet ing2.annotations "ingress.kubernetes.io/protocol" = some "https" ∧
        mapGet ing2.annotations "ingress.kubernetes.io/secure-backends" = some "true" ∧
        (∀ key, key ≠ "nginx.ingress.kubernetes.io/backend-protocol" →
          key ≠ "ingress.kubernetes.io/protocol" →
          key ≠ "ingress.kubernetes.io/secure-backends" →
          mapGet ing2.annotations key = mapGet ing.annotations key)) := by
  by_cases h1 : (ing.spec.rules.length == 0 && ing.spec.defaultBackend.isNone) = true
  · by_cases h2 : vault.spec.IsTLSDisabled = false
    · refine ⟨{ ing with
          annotations := tlsAnnotate ing.annotations,
          spec := { ing.spec with defaultBackend :=
            (some (IngressBackend.mk (some (IngressServiceBackend.mk vault.name
              (ServiceBackendPort.mk 8200))))) } }, ?_, fun _ _ => rfl, fun _ => ?_⟩
      · unfold Vault.GetIngress
        rw [h]
        simp only [if_pos h1, h2, Bool.not_false, if_true]
      · exact tlsAnnotate_facts ing.annotations
    · have h2t : vault.spec.IsTLSDisabled = true := by
        cases hx : vault.spec.IsTLSDisabled
        · exact absurd hx h2
        · rfl
      refine ⟨{ ing with spec := { ing.spec with defaultBackend :=
          (some (IngressBackend.mk (some (IngressServiceBackend.mk vault.name
            (ServiceBackendPort.mk 8200))))) } }, ?_, fun _ _ => rfl, fun htls => ?_⟩
      · unfold Vault.GetIngress
        rw [h]
        simp only [if_pos h1, h2t, Bool.not_true, Bool.false_eq_true, if_false]
      · exact absurd htls h2
  · by_cases h2 : vault.spec.IsTLSDisabled = false
    · refine ⟨{ ing with annotations := tlsAnnotate ing.annotations }, ?_,
        fun hr hb => ?_, fun _ => ?_⟩
      · unfold Vault.GetIngress
        rw [h]
        simp only [if_neg h1, h2, Bool.not_false, if_true]
      · exact absurd (by simp [hr, hb]) h1
      · exact tlsAnnotate_facts ing.annotations
    · have h2t : vault.spec.IsTLSDisabled = true := by
        cases hx : vault.spec.IsTLSDisabled
        · exact absurd hx h2
        · rfl
      refine ⟨ing, ?_, fun hr hb => ?_, fun htls => ?_⟩
      · unfold Vault.GetIngress
        rw [h]
        simp only [if_neg h1, h2t, Bool.not_true, Bool.false_eq_true, if_false]
      · exact absurd (by simp [hr, hb]) h1
      · exact absurd htls h2

/-- An ingress with one user annotation, no rules and no default backend. -/
def ingC9 : Ingress := ⟨[("userKey", "userVal")], ⟨[], none⟩⟩

/-- A cluster with that ingress and TLS enabled (no tls_disable flag). -/
def vaultC9 : Vault := ⟨"test", "default", { specStub with ingress := some ingC9 }⟩

/-- Witness for C9: the synthesized ingress of a concrete cluster has the
defaulted backend, the three protocol annotations, and the untouched user
annotation. -/
theorem C9_ingress_defaulting_witness :
    ∃ ing2, vaultC9.GetIngress = some ing2 ∧
      ing2.spec.defaultBackend =
        some (IngressBackend.mk (some (IngressServiceBackend.mk "test"
          (ServiceBackendPort.mk 8200)))) ∧
      mapGet ing2.annotations "nginx.ingress.kubernetes.io/backend-protocol" =
        some "HTTPS" ∧
      mapGet ing2.annotations "userKey" = some "userVal" := by
  obtain ⟨ing2, hsome, hdef, htls⟩ := C9_ingress_defaulting vaultC9 ingC9 rfl
  obtain ⟨ha1, _, _, hother⟩ := htls rfl
  refine ⟨ing2, hsome, hdef rfl rfl, ha1, ?_⟩
  rw [hother "userKey" (by decide) (by decide) (by decide)]
  rfl
